import Mathlib

/-!
Verification of the vbus element model and bus-wrapper dispatch logic.

The definitions below are a shallow embedding of the Python sources:
`vbus/definitions.py` (element definitions), `vbus/nodes.py` (connected
nodes and the server-side dispatcher), `vbus/nats.py` (the bus client
wrapper and the permission negotiator) and `vbus/helpers.py` (the codec
and path helpers).  Python exceptions are modelled as `Except String`
(the string is the stringified exception); Python `None` is the JSON
`null`; wire payloads are `Option` of a JSON value where `none` is the
empty byte payload.
-/

mutual

/-- JSON values as decoded by the json codec.  Objects keep insertion
order, mirroring Python dicts; numbers are modelled as integers. -/
inductive JVal where
  | null : JVal
  | bool : Bool → JVal
  | num : Int → JVal
  | str : String → JVal
  | arr : JList → JVal
  | obj : JObj → JVal

inductive JList where
  | nil : JList
  | cons : JVal → JList → JList

inductive JObj where
  | nil : JObj
  | cons : String → JVal → JObj → JObj

end

/-- Emptiness test for a JSON array. -/
def JList.isNil : JList → Bool
  | .nil => true
  | .cons _ _ => false

/-- Emptiness test for a JSON object. -/
def JObj.isNil : JObj → Bool
  | .nil => true
  | .cons _ _ _ => false

/-- Python truthiness of a decoded JSON value (`None`, `False`, `0`,
`""`, `[]` and `\x7b\x7d` are falsy). -/
def pyTruthy : JVal → Bool
  | .null => false
  | .bool b => b
  | .num n => n != 0
  | .str s => s != ""
  | .arr l => !l.isNil
  | .obj o => !o.isNil

/-- First binding of a key in a JSON object (Python dict lookup; dict
keys are unique, so first-match lookup is faithful). -/
def JObj.lookup : JObj → String → Option JVal
  | .nil, _ => none
  | .cons k v rest, key => if k = key then some v else JObj.lookup rest key

/-- Membership of a key in a JSON object (Python `key in d`). -/
def JObj.hasKey (o : JObj) (key : String) : Bool :=
  (o.lookup key).isSome

/-- `helpers.join_path`: dot-join the segments, eliding empty ones
(Python `".".join(filter(None, args))`). -/
def joinPath (args : List String) : String :=
  String.intercalate "." (args.filter (fun s => s ≠ ""))

/-- Number of elements of a JSON array. -/
def JList.length : JList → Nat
  | .nil => 0
  | .cons _ rest => 1 + rest.length

/-- `helpers.from_vbus`: empty payload decodes to Python `None`
(`JVal.null`), otherwise the decoded JSON value. -/
def fromVbus : Option JVal → JVal
  | none => .null
  | some v => v

/-- `helpers.to_vbus`: Python `None` encodes to the empty payload
(`none`); anything else is JSON-encoded. -/
def toVbus : JVal → Option JVal
  | .null => none
  | v => some v

/-- Outcome of an awaited Python callback: a value, or a raised
exception carried as its stringified form. -/
abbrev CbResult := Except String JVal

/-- `definitions.SetCallback` / `definitions.GetCallback`: an async
callable taking the decoded payload and the path parts. -/
abbrev Callback := JVal → List String → CbResult

mutual

/-- Element definitions (`definitions.py`): `ErrorDefinition`,
`MethodDef`, `AttributeDef` and `NodeDef`.  The method field is the
stored callable, invoked with a list of positional arguments and the
path parts; `AsyncNodeDef` is not needed by any claim and is omitted.
The attribute `value` and `schema` fields use `JVal.null` for Python
`None`. -/
inductive VDef where
  | errorDef : Int → String → Option String → VDef
  | methodDef : (JList → List String → CbResult) → JVal → JVal → VDef
  | attributeDef : String → JVal → JVal → Option Callback → Option Callback → VDef
  | nodeDef : DefMap → Option Callback → VDef

/-- The child map of a `NodeDef` (`NodeDef._structure`), a Python dict
from uuid to definition, in insertion order. -/
inductive DefMap where
  | nil : DefMap
  | cons : String → VDef → DefMap → DefMap

end

mutual

/-- `Definition.to_repr` for each variant: the JSON rendering.
`ErrorDefinition.to_repr` drops the `detail` field when it is falsy;
`AttributeDef.to_repr` drops `value` when it is Python `None`;
`NodeDef.to_repr` renders children recursively. -/
def VDef.toRepr : VDef → JVal
  | .errorDef code msg detail =>
      match detail with
      | some d =>
          if d ≠ "" then
            .obj (.cons "code" (.num code) (.cons "message" (.str msg)
              (.cons "detail" (.str d) .nil)))
          else
            .obj (.cons "code" (.num code) (.cons "message" (.str msg) .nil))
      | none => .obj (.cons "code" (.num code) (.cons "message" (.str msg) .nil))
  | .methodDef _ paramsSchema returnsSchema =>
      .obj (.cons "params" (.obj (.cons "schema" paramsSchema .nil))
        (.cons "returns" (.obj (.cons "schema" returnsSchema .nil)) .nil))
  | .attributeDef _ value schema _ _ =>
      match value with
      | .null => .obj (.cons "schema" schema .nil)
      | v => .obj (.cons "schema" schema (.cons "value" v .nil))
  | .nodeDef st _ => .obj (DefMap.toReprMap st)

/-- Renders every child of a `NodeDef`. -/
def DefMap.toReprMap : DefMap → JObj
  | .nil => .nil
  | .cons k v rest => .cons k (VDef.toRepr v) (DefMap.toReprMap rest)

end

mutual

/-- `Definition.search_path`: empty parts resolve to the definition
itself; an `AttributeDef` additionally accepts `["value"]`; a `NodeDef`
descends into the child named by the first part; `MethodDef` and
`ErrorDefinition` accept only empty parts. -/
def VDef.searchPath : VDef → List String → Option VDef
  | d, [] => some d
  | .attributeDef k v s os og, ps =>
      if ps = ["value"] then some (.attributeDef k v s os og) else none
  | .nodeDef st _, p :: ps => DefMap.searchChild st p ps
  | _, _ :: _ => none

/-- Child lookup step of `NodeDef.search_path`. -/
def DefMap.searchChild : DefMap → String → List String → Option VDef
  | .nil, _, _ => none
  | .cons k v rest, p, ps =>
      if k = p then VDef.searchPath v ps else DefMap.searchChild rest p ps

end

/-- Tests whether the request payload is a dict with a truthy
`in_cache` entry (`AttributeDef.handle_get`). -/
def inCacheRequested : JVal → Bool
  | .obj kvs =>
      match kvs.lookup "in_cache" with
      | some v => pyTruthy v
      | none => false
  | _ => false

/-- `Definition.handle_get`: the default returns `to_repr`;
`AttributeDef` overrides it: when the last part is `value`, a truthy
`in_cache` flag returns Python `None` (the cache is not handled),
otherwise `on_get` is awaited when present, else the stored value is
returned; an empty parts list raises `IndexError`. -/
def VDef.handleGet : VDef → JVal → List String → CbResult
  | .attributeDef key value schema onSet onGet, data, parts =>
      match parts.getLast? with
      | none => .error "list index out of range"
      | some lastPart =>
          if lastPart = "value" then
            if inCacheRequested data then
              .ok .null
            else
              match onGet with
              | some g => g data parts
              | none => .ok value
          else .ok (VDef.toRepr (.attributeDef key value schema onSet onGet))
  | d, _, _ => .ok d.toRepr

/-- `Definition.handle_set`: a `MethodDef` calls the stored callable
with the payload elements as positional arguments when the payload is a
non-empty list, and with the single positional argument `None`
otherwise (`*(data or [None])` on a list payload, `self._method(None)`
on a non-list payload); `AttributeDef` and `NodeDef` await their
`on_set` when present (else return `None`); the base class does
nothing and returns `None`. -/
def VDef.handleSet : VDef → JVal → List String → CbResult
  | .methodDef m _ _, data, parts =>
      match data with
      | .arr xs =>
          if pyTruthy (.arr xs) then m xs parts
          else m (.cons .null .nil) parts
      | _ => m (.cons .null .nil) parts
  | .attributeDef _ _ _ onSet _, data, parts =>
      match onSet with
      | some f => f data parts
      | none => .ok .null
  | .nodeDef _ onSet, data, parts =>
      match onSet with
      | some f => f data parts
      | none => .ok .null
  | .errorDef _ _ _, _, _ => .ok .null

/-- `ErrorDefinition.PathNotFoundError().to_repr()`. -/
def pathNotFoundRepr : JVal :=
  (VDef.errorDef 404 "not found" none).toRepr

/-- `ErrorDefinition.InternalError(e).to_repr()` for a stringified
exception `e`. -/
def internalErrorRepr (e : String) : JVal :=
  (VDef.errorDef 500 "internal server error" (some e)).toRepr

/-- `NodeManager._handle_get`: resolve the path in the local tree; a
missing path yields the 404 reply, a raising handler is caught and
yields the 500 reply, otherwise the handler's value is the reply. -/
def dispatchGet (root : VDef) (parts : List String) (data : JVal) : JVal :=
  match root.searchPath parts with
  | none => pathNotFoundRepr
  | some d =>
      match d.handleGet data parts with
      | .ok v => v
      | .error e => internalErrorRepr e

/-- `NodeManager._handle_set`: same routing as `_handle_get` but the
resolved definition handles a `set`. -/
def dispatchSet (root : VDef) (parts : List String) (data : JVal) : JVal :=
  match root.searchPath parts with
  | none => pathNotFoundRepr
  | some d =>
      match d.handleSet data parts with
      | .ok v => v
      | .error e => internalErrorRepr e

/-- Python `str.split('.')` over the characters of the path: every dot
separates segments, empty segments are kept, the empty string splits to
one empty segment. -/
def splitDotChars : List Char → List Char → List String
  | [], acc => [String.mk acc.reverse]
  | c :: rest, acc =>
      if c = '.' then String.mk acc.reverse :: splitDotChars rest []
      else splitDotChars rest (c :: acc)

/-- Python `path.split('.')`. -/
def splitDots (s : String) : List String :=
  splitDotChars s.toList []

/-- `NodeManager._on_get_path`: split the captured path on dots, pop
the trailing token; `get` and `set` route to the dispatcher, anything
else returns Python `None` (no reply value). -/
def onGetPath (root : VDef) (data : JVal) (path : String) : Option JVal :=
  match (splitDots path).reverse with
  | [] => none
  | m :: restRev =>
      let parts := restRev.reverse
      if m = "get" then some (dispatchGet root parts data)
      else if m = "set" then some (dispatchSet root parts data)
      else none

/-- An incoming per-path request: the decoded payload and the wildcard
path capture. -/
structure VMsg where
  data : JVal
  path : String

/-- Sequential processing of the requests delivered on the catch-all
subscription: each message is dispatched by `_on_get_path`
independently, one task per message, none of which can raise. -/
def processMsgs (root : VDef) : List VMsg → List (Option JVal)
  | [] => []
  | m :: rest => onGetPath root m.data m.path :: processMsgs root rest

/-- `ExtendedNatsClient._subscribe_on_data_task` for a single delivered
message: when the subject regex matches, the handler is awaited on the
decoded payload and the captured groups; if it returns and the message
carries a reply subject, the encoded return value is published there; a
raising handler is caught and logged and nothing is published.  The
result is the list of messages published on the bus. -/
def subscribeOnDataTask (matchGroups : Option (List String))
    (cb : JVal → List String → CbResult) (reply : String)
    (wireData : Option JVal) : List (String × Option JVal) :=
  match matchGroups with
  | none => []
  | some groups =>
      match cb (fromVbus wireData) groups with
      | .error _ => []
      | .ok ret => if reply ≠ "" then [(reply, toVbus ret)] else []

/-- Python `==` between the recursion counter (an int) and the
`max_level` payload value: ints compare numerically, bools compare as 0
and 1, anything else compares unequal. -/
def pyEqIntJ (c : Nat) : JVal → Bool
  | .num n => (c : Int) = n
  | .bool b => (c : Int) = (if b then 1 else 0)
  | _ => false

mutual

/-- One value step of `helpers.prune_dict`: a dict value encountered
when the counter equals `max_level` becomes the literal string `...`;
a dict value below the limit is recursed into with the counter
incremented; any non-dict value is left untouched. -/
def pruneValue (mx : JVal) (cur : Nat) : JVal → JVal
  | .obj kvs =>
      if pyEqIntJ cur mx then .str "..."
      else .obj (pruneObj mx (cur + 1) kvs)
  | .null => .null
  | .bool b => .bool b
  | .num n => .num n
  | .str s => .str s
  | .arr l => .arr l

/-- `helpers.prune_dict` over the entries of one dict: every value is
pruned at the current counter. -/
def pruneObj (mx : JVal) (cur : Nat) : JObj → JObj
  | .nil => .nil
  | .cons k v rest => .cons k (pruneValue mx cur v) (pruneObj mx cur rest)

end

/-- `NodeManager._on_get_nodes`: the describe reply is the single-entry
dict from the client hostname to the rendered tree; when the payload is
a truthy dict containing `max_level`, the reply is pruned with that
level as the limit. -/
def onGetNodes (hostname : String) (root : VDef) (data : JVal) : JVal :=
  let tree : JObj := .cons hostname root.toRepr .nil
  match data with
  | .obj kvs =>
      if pyTruthy (.obj kvs) && kvs.hasKey "max_level" then
        match kvs.lookup "max_level" with
        | some level => .obj (pruneObj level 0 tree)
        | none => .obj tree
      else .obj tree
  | _ => .obj tree

/-- Value of a JSON tree at a path of dict keys: each step looks the
key up in a dict; a non-dict or a missing key stops the walk. -/
def getAtPath : JVal → List String → Option JVal
  | v, [] => some v
  | .obj kvs, k :: rest =>
      match kvs.lookup k with
      | some v => getAtPath v rest
      | none => none
  | _, _ :: _ => none

/-- Tests whether a JSON value is a dict. -/
def JVal.isObjV : JVal → Bool
  | .obj _ => true
  | _ => false

/-- A non-string container: a JSON array or a JSON dict. -/
def isNonStringContainer : JVal → Bool
  | .arr _ => true
  | .obj _ => true
  | _ => false

/-- `AttributeDef.value` setter: when the stored schema is truthy the
new value is validated against it (the `jsonschema` validator is the
external parameter `validate`); a validation failure raises
`ValueError` and leaves the stored value unchanged; otherwise the new
value is stored. -/
def attrValueSetter (validate : JVal → JVal → Bool) (key : String)
    (schema : JVal) (v : JVal) : Except String JVal :=
  if pyTruthy schema then
    if validate v schema then .ok v
    else .error ("cannot set attribute " ++ key)
  else .ok v

/-- `Attribute.set_value` (`nodes.py`): assign the definition's value
through the validating setter, then publish the new value on
`<attr-path>.value.set`; a raising setter propagates to the caller and
nothing is published.  Returns the stored value and the list of
published messages. -/
def attributeSetValue (validate : JVal → JVal → Bool) (path : String)
    (key : String) (schema : JVal) (v : JVal) :
    Except String (JVal × List (String × JVal)) :=
  match attrValueSetter validate key schema v with
  | .error e => .error e
  | .ok nv => .ok (nv, [(joinPath [path, "value.set"], v)])

/-- `NodeDef.remove_child`: a uuid absent from the structure returns
`None` and leaves the map unchanged; a present uuid is deleted and its
definition returned. -/
def DefMap.removeChild : DefMap → String → Option VDef × DefMap
  | .nil, _ => (none, .nil)
  | .cons k v rest, u =>
      if k = u then (some v, rest)
      else
        let r := DefMap.removeChild rest u
        (r.1, .cons k v r.2)

/-- Keys of a `DefMap`. -/
def DefMap.keys : DefMap → List String
  | .nil => []
  | .cons k _ rest => k :: DefMap.keys rest

/-- First binding of a uuid in a `DefMap` (Python dict lookup). -/
def DefMap.lookupDef : DefMap → String → Option VDef
  | .nil, _ => none
  | .cons k v rest, u => if k = u then some v else DefMap.lookupDef rest u

/-- `Node.remove_element`: remove the child from the node's definition;
when nothing was removed only a warning is logged; when a child was
removed, a `del` notification carrying the removed child's rendering is
published on `<parent-path>.del`.  Returns the new child map and the
published messages. -/
def removeElement (nodePath : String) (st : DefMap) (u : String) :
    DefMap × List (String × JVal) :=
  match DefMap.removeChild st u with
  | (none, st') => (st', [])
  | (some d, st') =>
      (st', [(joinPath [nodePath, "del"], .obj (.cons u d.toRepr .nil))])

/-- The permission lists of the config file
(`config["client"]["permissions"]`). -/
structure Permissions where
  subscribe : List String
  publish : List String
deriving DecidableEq

/-- `ExtendedNatsClient.ask_permission` (credential-less mode): append
the path to each permission list it is missing from; when a list
changed, send one request carrying the updated permissions on the
authorization subject and persist the config only on a truthy reply;
when nothing changed, no bus traffic and the result is `True`.  `resp`
is the decoded reply of the bus request; the result is the persisted
config, the list of requests sent (subject and permission block), and
the returned value. -/
def askPermission (remoteHostname theId hostname : String) (resp : JVal)
    (cfg : Permissions) (perm : String) :
    Permissions × List (String × Permissions) × JVal :=
  let changedSub := ¬ perm ∈ cfg.subscribe
  let sub := if changedSub then cfg.subscribe ++ [perm] else cfg.subscribe
  let changedPub := ¬ perm ∈ cfg.publish
  let pub := if changedPub then cfg.publish ++ [perm] else cfg.publish
  let newPerms : Permissions := ⟨sub, pub⟩
  if changedSub ∨ changedPub then
    let subject := "system.authorization." ++ remoteHostname ++ "." ++ theId
      ++ "." ++ hostname ++ ".permissions.set"
    if pyTruthy resp then (newPerms, [(subject, newPerms)], resp)
    else (cfg, [(subject, newPerms)], resp)
  else (cfg, [], .bool true)

/-- Two successive `ask_permission` calls for the same path: the second
call reads the config persisted by the first.  Results are the final
persisted config, all requests sent, and the two returned values. -/
def askPermissionTwice (remoteHostname theId hostname : String)
    (resp1 resp2 : JVal) (cfg : Permissions) (perm : String) :
    Permissions × List (String × Permissions) × JVal × JVal :=
  let r1 := askPermission remoteHostname theId hostname resp1 cfg perm
  let r2 := askPermission remoteHostname theId hostname resp2 r1.1 perm
  (r2.1, r1.2.1 ++ r2.2.1, r1.2.2, r2.2.2)

/-- Python types a callback parameter or return value can be annotated
with. -/
inductive PyType where
  | pyStr : PyType
  | pyInt : PyType
  | pyFloat : PyType
  | pyBool : PyType
  | pyNone : PyType
  | pyDict : PyType
  | pyList : PyType
deriving DecidableEq

/-- `MethodDef.py_types_to_json_schema`: the supported primitive types
and their JSON-schema names; unsupported types are absent. -/
def pyTypesToJsonSchema : PyType → Option String
  | .pyStr => some "string"
  | .pyInt => some "integer"
  | .pyFloat => some "number"
  | .pyBool => some "boolean"
  | .pyNone => some "null"
  | _ => none

/-- A callable's signature as `inspect.getfullargspec` reports it: the
declared positional parameters with their optional type annotations,
and the optional return annotation. -/
structure PySig where
  args : List (String × Option PyType)
  ret : Option PyType

/-- Parameter loop of `MethodDef.validate_callback`: `self`, `kwargs`
and `args` are skipped; an unannotated parameter or an unsupported
annotation raises `ValueError`. -/
def validateArgs : List (String × Option PyType) → Except String Unit
  | [] => .ok ()
  | (name, ann) :: rest =>
      if name = "self" ∨ name = "kwargs" ∨ name = "args" then
        validateArgs rest
      else
        match ann with
        | none => .error "you must annotate your callback"
        | some t =>
            match pyTypesToJsonSchema t with
            | none => .error "not a supported python type"
            | some _ => validateArgs rest

/-- `MethodDef.validate_callback`: validate every parameter, then
require a return annotation to be present (its type is not checked
here). -/
def validateCallback (sig : PySig) : Except String Unit :=
  match validateArgs sig.args with
  | .error e => .error e
  | .ok _ =>
      match sig.ret with
      | none => .error "you must annotate return value"
      | some _ => .ok ()

/-- Parameter loop of `MethodDef._inspect_method`: only `self` is
skipped; each remaining parameter contributes one
`type`/`title` entry, looked up in the annotation dict (`KeyError` when
absent) and in the primitive table (`KeyError` when unsupported). -/
def inspectArgs : List (String × Option PyType) → Except String JList
  | [] => .ok .nil
  | (name, ann) :: rest =>
      if name = "self" then inspectArgs rest
      else
        match ann with
        | none => .error "KeyError"
        | some t =>
            match pyTypesToJsonSchema t with
            | none => .error "KeyError"
            | some s =>
                match inspectArgs rest with
                | .error e => .error e
                | .ok items =>
                    .ok (.cons (.obj (.cons "type" (.str s)
                      (.cons "title" (.str name) .nil))) items)

/-- `MethodDef._inspect_method`: the params schema is
an array schema whose `items` list the parameters; the returns
schema maps the return annotation through the primitive table
(`KeyError` when absent or unsupported). -/
def inspectMethod (sig : PySig) : Except String (JVal × JVal) :=
  match inspectArgs sig.args with
  | .error e => .error e
  | .ok items =>
      match sig.ret with
      | none => .error "KeyError"
      | some t =>
          match pyTypesToJsonSchema t with
          | none => .error "KeyError"
          | some s =>
              .ok (.obj (.cons "type" (.str "array")
                    (.cons "items" (.arr items) .nil)),
                  .obj (.cons "type" (.str s) .nil))

/-- `MethodDef.__init__` with no explicit schemas: validate the
callback, then introspect it to build the params and returns schemas; a
raise anywhere makes construction fail. -/
def methodDefNew (sig : PySig) : Except String (JVal × JVal) :=
  match validateCallback sig with
  | .error e => .error e
  | .ok _ => inspectMethod sig

/-- `Definition.is_attribute`: a dict carrying a `schema` key. -/
def isAttributeRaw : JVal → Bool
  | .obj kvs => kvs.hasKey "schema"
  | _ => false

/-- `Definition.is_method`: a dict carrying both `params` and
`returns` keys. -/
def isMethodRaw : JVal → Bool
  | .obj kvs => kvs.hasKey "params" && kvs.hasKey "returns"
  | _ => false

/-- `Definition.is_node`: neither an attribute nor a method. -/
def isNodeRaw (v : JVal) : Bool :=
  !isAttributeRaw v && !isMethodRaw v

/-- The three wire shapes. -/
inductive RawShape where
  | methodShape : RawShape
  | attributeShape : RawShape
  | nodeShape : RawShape
deriving DecidableEq

/-- Modelled from the spec: the shape-discrimination priority of
section 3 of the specification, which the `Definition.is_*` predicates
do not themselves encode — `params` and `returns` first select Method,
then `schema` selects Attribute, otherwise Node. -/
def specDiscriminate (v : JVal) : RawShape :=
  match v with
  | .obj kvs =>
      if kvs.hasKey "params" && kvs.hasKey "returns" then .methodShape
      else if kvs.hasKey "schema" then .attributeShape
      else .nodeShape
  | _ => .nodeShape

/-- The positional arguments `MethodDef.handle_set` actually passes to
the stored callable: the payload's elements when the payload is a
non-empty list, and the single argument `None` when the payload is the
empty list or not a list. -/
def methodCallArgs : JVal → JList
  | .arr JList.nil => .cons .null .nil
  | .arr xs => xs
  | _ => .cons .null .nil

/-- C3 (amended): `MethodDef.handle_set` always invokes the stored
callable and returns its result; the positional arguments are the
payload's elements when the payload is a non-empty list, and a single
`None` argument when the payload is the empty list or not a list
(never zero arguments). -/
theorem methodDef_handleSet_args (m : JList → List String → CbResult)
    (ps rs : JVal) (data : JVal) (parts : List String) :
    VDef.handleSet (.methodDef m ps rs) data parts
      = m (methodCallArgs data) parts := by
  cases data with
  | arr xs =>
      cases xs with
      | nil => rfl
      | cons v rest => rfl
  | null => rfl
  | bool b => rfl
  | num n => rfl
  | str s => rfl
  | obj o => rfl

/-- C3 (counterexample): on the non-list payload `5`, the stored
callable (here a probe returning the argument list it received) is
invoked with the single positional argument `None`, not with zero
positional arguments as the claim states. -/
theorem methodDef_handleSet_nonlist_counterexample :
    VDef.handleSet (.methodDef (fun xs _ => .ok (.arr xs)) .null .null)
        (.num 5) []
      = .ok (.arr (.cons .null .nil)) ∧
    (Except.ok (.arr (.cons .null .nil)) : CbResult) ≠ .ok (.arr .nil) := by
  refine ⟨rfl, ?_⟩
  intro h
  simp at h

/-- C4 (amended): on a `handle_get` whose parts end with `value`, a
payload that is a dict with a truthy `in_cache` flag makes the
attribute return Python `None` without invoking `on_get` (the cache is
not implemented); otherwise `on_get` is invoked when present, else the
cached value is returned. -/
theorem attributeDef_handleGet_value (key : String) (value schema : JVal)
    (onSet onGet : Option Callback) (data : JVal) (parts : List String)
    (hlast : parts.getLast? = some "value") :
    (inCacheRequested data = true →
        VDef.handleGet (.attributeDef key value schema onSet onGet) data parts
          = .ok .null) ∧
    (inCacheRequested data = false →
        VDef.handleGet (.attributeDef key value schema onSet onGet) data parts
          = match onGet with
            | some g => g data parts
            | none => .ok value) := by
  constructor
  · intro hc
    simp [VDef.handleGet, hlast, hc]
  · intro hc
    simp [VDef.handleGet, hlast, hc]

/-- C4 (witness): a concrete attribute caching `21`, asked with
`in_cache = true`, replies `None`. -/
theorem attributeDef_handleGet_value_witness :
    VDef.handleGet
        (.attributeDef "temp" (.num 21) .null none (some (fun _ _ => .ok (.num 99))))
        (.obj (.cons "in_cache" (.bool true) .nil)) ["temp", "value"]
      = .ok .null :=
  (attributeDef_handleGet_value "temp" (.num 21) .null none
      (some (fun _ _ => .ok (.num 99)))
      (.obj (.cons "in_cache" (.bool true) .nil)) ["temp", "value"] rfl).1 rfl

/-- C4 (counterexample): an attribute caching `21`, with an `on_get`
probe that would return `99`, asked with a truthy `in_cache` flag,
returns `None` — neither the cached value `21` the claim promises, nor
the probe's value, which shows `on_get` was indeed not invoked. -/
theorem attributeDef_handleGet_inCache_counterexample :
    VDef.handleGet
        (.attributeDef "temp" (.num 21) .null none (some (fun _ _ => .ok (.num 99))))
        (.obj (.cons "in_cache" (.bool true) .nil)) ["temp", "value"]
      = .ok .null ∧
    (Except.ok JVal.null : CbResult) ≠ .ok (.num 21) := by
  refine ⟨rfl, ?_⟩
  intro h
  simp at h

/-- C2 (amended): on a matched message carrying a reply subject, a
handler returning non-`None` causes exactly one publish of the encoded
value on the reply subject; a handler returning `None` still causes
exactly one publish on the reply subject, carrying the empty payload
(`to_vbus(None) = b''`) — not "nothing published". -/
theorem subscribe_reply_publish (groups : List String) (cb : Callback)
    (reply : String) (wire : Option JVal) (hr : reply ≠ "") :
    (∀ ret, cb (fromVbus wire) groups = .ok ret → ret ≠ .null →
        subscribeOnDataTask (some groups) cb reply wire = [(reply, some ret)]) ∧
    (cb (fromVbus wire) groups = .ok .null →
        subscribeOnDataTask (some groups) cb reply wire = [(reply, none)]) := by
  constructor
  · intro ret hcb hnn
    simp only [subscribeOnDataTask, hcb, if_pos hr]
    cases ret with
    | null => exact absurd rfl hnn
    | bool b => rfl
    | num n => rfl
    | str s => rfl
    | arr l => rfl
    | obj o => rfl
  · intro hcb
    simp only [subscribeOnDataTask, hcb, if_pos hr]
    rfl

/-- C2 (witness): a concrete handler returning `42` on a message with
reply subject `r` publishes the encoded `42` on `r`. -/
theorem subscribe_reply_publish_witness :
    subscribeOnDataTask (some []) (fun _ _ => .ok (.num 42)) "r" none
      = [("r", some (.num 42))] :=
  (subscribe_reply_publish [] (fun _ _ => .ok (.num 42)) "r" none
      (by decide)).1 (.num 42) rfl (by intro h; simp at h)

/-- C2 (counterexample): a handler returning `None` on a message with
reply subject `r`: the task publishes one message (with empty payload)
on `r`, while the claim states nothing is published. -/
theorem subscribe_reply_none_counterexample :
    subscribeOnDataTask (some []) (fun _ _ => .ok .null) "r" none
      = [("r", none)] ∧
    ([(("r" : String), (none : Option JVal))] : List (String × Option JVal)) ≠ [] := by
  refine ⟨rfl, ?_⟩
  intro h
  simp at h

/-- C9 (amended): the three shape predicates are exhaustive on every
raw value and `is_node` excludes the other two, but `is_attribute` and
`is_method` are not mutually exclusive (an object with `schema`,
`params` and `returns` keys satisfies both); the Method-over-Attribute
priority is realised by the spec's discrimination order, not by the
predicates: that order always selects Method exactly on `is_method`
objects and Node exactly on `is_node` values, and selects Attribute
only on `is_attribute` objects. -/
theorem shape_discrimination (v : JVal) :
    (isAttributeRaw v || isMethodRaw v || isNodeRaw v) = true ∧
    (isNodeRaw v = true → isAttributeRaw v = false ∧ isMethodRaw v = false) ∧
    (specDiscriminate v = .methodShape ↔ isMethodRaw v = true) ∧
    (specDiscriminate v = .nodeShape ↔ isNodeRaw v = true) ∧
    (specDiscriminate v = .attributeShape → isAttributeRaw v = true) := by
  cases v with
  | obj kvs =>
      by_cases hp : kvs.hasKey "params" <;>
        by_cases hr : kvs.hasKey "returns" <;>
          by_cases hs : kvs.hasKey "schema" <;>
            simp [isAttributeRaw, isMethodRaw, isNodeRaw, specDiscriminate,
              hp, hr, hs]
  | null => simp [isAttributeRaw, isMethodRaw, isNodeRaw, specDiscriminate]
  | bool b => simp [isAttributeRaw, isMethodRaw, isNodeRaw, specDiscriminate]
  | num n => simp [isAttributeRaw, isMethodRaw, isNodeRaw, specDiscriminate]
  | str s => simp [isAttributeRaw, isMethodRaw, isNodeRaw, specDiscriminate]
  | arr l => simp [isAttributeRaw, isMethodRaw, isNodeRaw, specDiscriminate]

/-- C9 (witness): the spec discrimination selects Attribute on a plain
`schema`-carrying object, and `is_attribute` indeed holds there. -/
theorem shape_discrimination_witness :
    isAttributeRaw (.obj (.cons "schema" .null .nil)) = true :=
  (shape_discrimination (.obj (.cons "schema" .null .nil))).2.2.2.2 rfl

/-- C9 (counterexample): the object with `schema`, `params` and
`returns` keys satisfies both `is_attribute` and `is_method`, so the
predicates are not mutually exclusive as the claim states. -/
theorem shape_overlap_counterexample :
    isAttributeRaw (.obj (.cons "schema" .null
        (.cons "params" .null (.cons "returns" .null .nil)))) = true ∧
    isMethodRaw (.obj (.cons "schema" .null
        (.cons "params" .null (.cons "returns" .null .nil)))) = true :=
  ⟨rfl, rfl⟩

/-- What `remove_child` returns is exactly the dict lookup of the uuid. -/
theorem removeChild_fst : (st : DefMap) → (u : String) →
    (DefMap.removeChild st u).1 = DefMap.lookupDef st u
  | .nil, _ => rfl
  | .cons k v rest, u => by
      by_cases h : k = u <;>
        simp [DefMap.removeChild, DefMap.lookupDef, h, removeChild_fst rest u]

/-- Removing an absent uuid leaves the child map unchanged. -/
theorem removeChild_absent : (st : DefMap) → (u : String) →
    DefMap.lookupDef st u = none → (DefMap.removeChild st u).2 = st
  | .nil, _, _ => rfl
  | .cons k v rest, u, h => by
      by_cases hk : k = u
      · simp [DefMap.lookupDef, hk] at h
      · simp [DefMap.lookupDef, hk] at h
        simp [DefMap.removeChild, hk, removeChild_absent rest u h]

/-- A uuid outside the key list is not found by the lookup. -/
theorem lookupDef_not_mem : (st : DefMap) → (u : String) →
    u ∉ DefMap.keys st → DefMap.lookupDef st u = none
  | .nil, _, _ => rfl
  | .cons k v rest, u, h => by
      simp [DefMap.keys] at h
      simp [DefMap.lookupDef, lookupDef_not_mem rest u h.2]
      intro hk
      exact absurd hk.symm h.1

/-- With unique keys (the Python dict invariant), the removed uuid is
no longer found after `remove_child`. -/
theorem removeChild_gone : (st : DefMap) → (u : String) →
    (DefMap.keys st).Nodup → DefMap.lookupDef (DefMap.removeChild st u).2 u = none
  | .nil, _, _ => rfl
  | .cons k v rest, u, h => by
      simp [DefMap.keys] at h
      by_cases hk : k = u
      · subst hk
        simp [DefMap.removeChild]
        exact lookupDef_not_mem rest k h.1
      · simp [DefMap.removeChild, hk, DefMap.lookupDef,
          removeChild_gone rest u h.2]

/-- C10: removing a uuid that is not a child leaves the element tree
unchanged and publishes nothing; when the uuid is a child, exactly one
`del` notification is published on `<parent-path>.del` with the
single-entry payload mapping the uuid to the removed child's rendering,
and (under the dict invariant of unique keys) the child is gone from
the resulting tree. -/
theorem removeElement_spec (nodePath : String) (st : DefMap) (u : String) :
    (DefMap.lookupDef st u = none → removeElement nodePath st u = (st, [])) ∧
    (∀ d, DefMap.lookupDef st u = some d →
        (removeElement nodePath st u).2
          = [(joinPath [nodePath, "del"], .obj (.cons u d.toRepr .nil))] ∧
        ((DefMap.keys st).Nodup →
            DefMap.lookupDef (removeElement nodePath st u).1 u = none)) := by
  constructor
  · intro h
    have h1 := removeChild_fst st u
    have h2 := removeChild_absent st u h
    simp [removeElement]
    rw [h] at h1
    cases hrc : DefMap.removeChild st u with
    | mk fst snd =>
        rw [hrc] at h1 h2
        simp at h1 h2
        simp [h1, h2]
  · intro d h
    have h1 := removeChild_fst st u
    rw [h] at h1
    constructor
    · simp [removeElement]
      cases hrc : DefMap.removeChild st u with
      | mk fst snd =>
          rw [hrc] at h1
          simp at h1
          simp [h1]
    · intro hnd
      have h3 := removeChild_gone st u hnd
      simp [removeElement]
      cases hrc : DefMap.removeChild st u with
      | mk fst snd =>
          rw [hrc] at h1 h3
          simp at h1 h3
          simp [h1, h3]

/-- C10 (witness): removing the absent uuid `zz` from a one-child tree
changes nothing and publishes nothing; removing the present child `a`
publishes one `del` notification carrying its rendering. -/
theorem removeElement_spec_witness :
    removeElement "dev" (.cons "a" (.errorDef 1 "m" none) .nil) "zz"
      = (.cons "a" (.errorDef 1 "m" none) .nil, []) ∧
    (removeElement "dev" (.cons "a" (.errorDef 1 "m" none) .nil) "a").2
      = [("dev.del", .obj (.cons "a"
          (.obj (.cons "code" (.num 1) (.cons "message" (.str "m") .nil))) .nil))] :=
  ⟨(removeElement_spec "dev" (.cons "a" (.errorDef 1 "m" none) .nil) "zz").1 rfl,
   ((removeElement_spec "dev" (.cons "a" (.errorDef 1 "m" none) .nil) "a").2
      (.errorDef 1 "m" none) rfl).1⟩

/-- C6: for an attribute with a (truthy) schema, `set_value` succeeds
exactly when the external validator accepts the value against the
schema; on success the stored value becomes the new value and exactly
one publish of that value happens on `<attr-path>.value.set`; on
validation failure a `ValueError` is raised synchronously to the local
caller, the stored value is unchanged (no new value is produced) and
nothing is published. -/
theorem attribute_setValue_spec (validate : JVal → JVal → Bool)
    (path key : String) (schema v : JVal)
    (hs : pyTruthy schema = true) :
    (validate v schema = true →
        attributeSetValue validate path key schema v
          = .ok (v, [(joinPath [path, "value.set"], v)])) ∧
    (validate v schema = false →
        attributeSetValue validate path key schema v
          = .error ("cannot set attribute " ++ key)) := by
  constructor
  · intro hv
    simp [attributeSetValue, attrValueSetter, hs, hv]
  · intro hv
    simp [attributeSetValue, attrValueSetter, hs, hv]

/-- C6 (witness): with a validator accepting exactly numbers and a
truthy number schema, setting `7` on the attribute `temp` at path
`dev.temp` stores `7` and publishes it on `dev.temp.value.set`, while
setting the string `x` raises and publishes nothing. -/
theorem attribute_setValue_spec_witness :
    attributeSetValue (fun w _ => w matches .num _) "dev.temp" "temp"
        (.obj (.cons "type" (.str "number") .nil)) (.num 7)
      = .ok (.num 7, [("dev.temp.value.set", .num 7)]) ∧
    attributeSetValue (fun w _ => w matches .num _) "dev.temp" "temp"
        (.obj (.cons "type" (.str "number") .nil)) (.str "x")
      = .error "cannot set attribute temp" :=
  ⟨(attribute_setValue_spec (fun w _ => w matches .num _) "dev.temp" "temp"
      (.obj (.cons "type" (.str "number") .nil)) (.num 7) rfl).1 rfl,
   (attribute_setValue_spec (fun w _ => w matches .num _) "dev.temp" "temp"
      (.obj (.cons "type" (.str "number") .nil)) (.str "x") rfl).2 rfl⟩

/-- C7 (amended): when the path is initially absent from both
permission lists and the first call's authorization request is
acknowledged with a truthy reply, two `ask_permission` calls with the
same path produce exactly one bus request; the second call finds the
path persisted in both lists, performs no bus traffic and returns
`True`.  (When the first request is not acknowledged, the config is not
persisted and the second call repeats the request.) -/
theorem askPermission_idempotent (remoteHostname theId hostname : String)
    (resp1 resp2 : JVal) (cfg : Permissions) (perm : String)
    (hsub : perm ∉ cfg.subscribe) (hpub : perm ∉ cfg.publish)
    (hresp : pyTruthy resp1 = true) :
    (askPermissionTwice remoteHostname theId hostname resp1 resp2 cfg perm).2.1.length
        = 1 ∧
    (askPermissionTwice remoteHostname theId hostname resp1 resp2 cfg perm).2.2.2
        = .bool true ∧
    (askPermissionTwice remoteHostname theId hostname resp1 resp2 cfg perm).1
        = ⟨cfg.subscribe ++ [perm], cfg.publish ++ [perm]⟩ := by
  have h1 : askPermission remoteHostname theId hostname resp1 cfg perm
      = (⟨cfg.subscribe ++ [perm], cfg.publish ++ [perm]⟩,
         [("system.authorization." ++ remoteHostname ++ "." ++ theId
            ++ "." ++ hostname ++ ".permissions.set",
           ⟨cfg.subscribe ++ [perm], cfg.publish ++ [perm]⟩)], resp1) := by
    simp [askPermission, hsub, hpub, hresp]
  have h2 : askPermission remoteHostname theId hostname resp2
      (⟨cfg.subscribe ++ [perm], cfg.publish ++ [perm]⟩ : Permissions) perm
      = (⟨cfg.subscribe ++ [perm], cfg.publish ++ [perm]⟩, [], .bool true) := by
    simp [askPermission]
  simp [askPermissionTwice, h1, h2]

/-- C7 (witness): a fresh path `p` with an acknowledged first request:
one request in total, second call replies `True` and both persisted
lists hold `p`. -/
theorem askPermission_idempotent_witness :
    (askPermissionTwice "rh" "system.app" "host" (.bool true) .null
        ⟨[], []⟩ "p").2.1.length = 1 ∧
    (askPermissionTwice "rh" "system.app" "host" (.bool true) .null
        ⟨[], []⟩ "p").2.2.2 = .bool true ∧
    (askPermissionTwice "rh" "system.app" "host" (.bool true) .null
        ⟨[], []⟩ "p").1 = ⟨["p"], ["p"]⟩ :=
  askPermission_idempotent "rh" "system.app" "host" (.bool true) .null
    ⟨[], []⟩ "p" (by simp) (by simp) rfl

/-- C7 (counterexample): when the authorization service does not
acknowledge (empty reply decoding to `None`), the first call does not
persist the config, so the second call with the same path sends the
request again: two calls produce two bus requests, not exactly one. -/
theorem askPermission_retry_counterexample :
    (askPermissionTwice "rh" "system.app" "host" .null .null
        ⟨[], []⟩ "p").2.1.length = 2 ∧ (2 : Nat) ≠ 1 := by
  exact ⟨rfl, by decide⟩

/-- A successful introspection emits exactly one `items` entry per
parameter not named `self`. -/
theorem inspectArgs_length : (args : List (String × Option PyType)) →
    (items : JList) → inspectArgs args = .ok items →
    items.length = (args.filter (fun a => a.1 ≠ "self")).length
  | [], items, h => by
      simp [inspectArgs] at h
      simp [← h, JList.length]
  | (name, ann) :: rest, items, h => by
      by_cases hn : name = "self"
      · subst hn
        simp [inspectArgs] at h
        simpa using inspectArgs_length rest items h
      · cases ann with
        | none => simp [inspectArgs, hn] at h
        | some t =>
            cases ht : pyTypesToJsonSchema t with
            | none => simp [inspectArgs, hn, ht] at h
            | some s =>
                cases hrest : inspectArgs rest with
                | error e => simp [inspectArgs, hn, ht, hrest] at h
                | ok its =>
                    simp [inspectArgs, hn, ht, hrest] at h
                    have ih := inspectArgs_length rest its hrest
                    simp [← h, JList.length, hn, ih]
                    omega

/-- A parameter that is not named `self` and carries no annotation
makes the introspection raise (`ValueError` from `validate_callback`,
or `KeyError` from the annotation lookup for the skip-listed names
`kwargs` and `args`). -/
theorem inspectArgs_unannotated : (args : List (String × Option PyType)) →
    (name : String) → (name, (none : Option PyType)) ∈ args →
    name ≠ "self" → ∀ items, inspectArgs args ≠ .ok items
  | [], name, hmem, _, items => by simp at hmem
  | (n, a) :: rest, name, hmem, hns, items => by
      rcases List.mem_cons.mp hmem with hhead | htail
      · have hn : n = name := congrArg Prod.fst hhead.symm
        have ha : a = none := congrArg Prod.snd hhead.symm
        subst hn
        subst ha
        simp [inspectArgs, hns]
      · by_cases hn : n = "self"
        · subst hn
          simp [inspectArgs]
          exact inspectArgs_unannotated rest name htail hns items
        · cases a with
          | none => simp [inspectArgs, hn]
          | some t =>
              cases ht : pyTypesToJsonSchema t with
              | none => simp [inspectArgs, hn, ht]
              | some s =>
                  cases hrest : inspectArgs rest with
                  | error e => simp [inspectArgs, hn, ht, hrest]
                  | ok its =>
                      exact absurd hrest
                        (inspectArgs_unannotated rest name htail hns its)

/-- C8: when a `MethodDef` is introspected from a callable with no
explicit schemas and construction succeeds, the params schema is an
array schema whose `items` has exactly one entry per parameter not
named `self`; and an unannotated (non-`self`) parameter always makes
construction fail with a raised error. -/
theorem methodDef_introspection (sig : PySig) :
    (∀ p r, methodDefNew sig = .ok (p, r) →
        ∃ items, p = .obj (.cons "type" (.str "array")
            (.cons "items" (.arr items) .nil)) ∧
          items.length = (sig.args.filter (fun a => a.1 ≠ "self")).length) ∧
    (∀ name, (name, (none : Option PyType)) ∈ sig.args → name ≠ "self" →
        ∃ e, methodDefNew sig = .error e) := by
  constructor
  · intro p r h
    cases hv : validateCallback sig with
    | error e => simp [methodDefNew, hv] at h
    | ok _ =>
        cases hia : inspectArgs sig.args with
        | error e => simp [methodDefNew, hv, inspectMethod, hia] at h
        | ok items =>
            cases hret : sig.ret with
            | none => simp [methodDefNew, hv, inspectMethod, hia, hret] at h
            | some t =>
                cases ht : pyTypesToJsonSchema t with
                | none =>
                    simp [methodDefNew, hv, inspectMethod, hia, hret, ht] at h
                | some s =>
                    simp [methodDefNew, hv, inspectMethod, hia, hret, ht] at h
                    exact ⟨items, h.1.symm, inspectArgs_length sig.args items hia⟩
  · intro name hmem hns
    cases hv : validateCallback sig with
    | error e => exact ⟨e, by simp [methodDefNew, hv]⟩
    | ok _ =>
        cases hia : inspectArgs sig.args with
        | error e => exact ⟨e, by simp [methodDefNew, hv, inspectMethod, hia]⟩
        | ok items =>
            exact absurd hia (inspectArgs_unannotated sig.args name hmem hns items)

/-- C8 (witness): the callable `(self, x: int) -> None` builds a
one-entry params schema matching its single non-`self` parameter, and
the callable `(y) -> None` with `y` unannotated fails to build. -/
theorem methodDef_introspection_witness :
    (∃ items, JVal.obj (.cons "type" (.str "array")
        (.cons "items" (.arr (.cons (.obj (.cons "type" (.str "integer")
          (.cons "title" (.str "x") .nil))) .nil)) .nil))
      = .obj (.cons "type" (.str "array") (.cons "items" (.arr items) .nil)) ∧
      items.length
        = ((([("self", none), ("x", some .pyInt)] : List (String × Option PyType)).filter
            (fun a => a.1 ≠ "self"))).length) ∧
    (∃ e, methodDefNew ⟨[("y", (none : Option PyType))], some .pyNone⟩ = .error e) :=
  ⟨(methodDef_introspection ⟨[("self", none), ("x", some .pyInt)], some .pyNone⟩).1
      _ _ rfl,
   (methodDef_introspection ⟨[("y", none)], some .pyNone⟩).2 "y" (by simp)
      (by decide)⟩

/-- Each delivered request is dispatched independently of the ones
before it: the reply stream is the element-wise image of the per-message
dispatcher, so an erroring handler cannot affect later requests. -/
theorem processMsgs_eq_map (root : VDef) : ∀ msgs : List VMsg,
    processMsgs root msgs = msgs.map (fun m => onGetPath root m.data m.path)
  | [] => rfl
  | m :: rest => by simp [processMsgs, processMsgs_eq_map root rest]

/-- C1 (amended): a get or set whose path does not resolve replies
exactly with the 404 `not found` object; a resolved handler that raises
an exception with stringified form `e` replies exactly with the 500
`internal server error` object, carrying `detail = e` when `e` is
non-empty and omitting `detail` when `e` is the empty string; the
exception never propagates (the dispatcher is total) and the
subscription stays live: replies are computed message-by-message, so a
subsequent valid request on the same subject still receives its normal
reply (the handler's value). -/
theorem dispatcher_replies (root : VDef) (parts : List String) (data : JVal) :
    (root.searchPath parts = none →
        dispatchGet root parts data
          = .obj (.cons "code" (.num 404) (.cons "message" (.str "not found") .nil)) ∧
        dispatchSet root parts data
          = .obj (.cons "code" (.num 404) (.cons "message" (.str "not found") .nil))) ∧
    (∀ d e, root.searchPath parts = some d → d.handleGet data parts = .error e →
        dispatchGet root parts data
          = if e = "" then
              .obj (.cons "code" (.num 500)
                (.cons "message" (.str "internal server error") .nil))
            else
              .obj (.cons "code" (.num 500)
                (.cons "message" (.str "internal server error")
                  (.cons "detail" (.str e) .nil)))) ∧
    (∀ d e, root.searchPath parts = some d → d.handleSet data parts = .error e →
        dispatchSet root parts data
          = if e = "" then
              .obj (.cons "code" (.num 500)
                (.cons "message" (.str "internal server error") .nil))
            else
              .obj (.cons "code" (.num 500)
                (.cons "message" (.str "internal server error")
                  (.cons "detail" (.str e) .nil)))) ∧
    (∀ d v, root.searchPath parts = some d → d.handleGet data parts = .ok v →
        dispatchGet root parts data = v) ∧
    (∀ d v, root.searchPath parts = some d → d.handleSet data parts = .ok v →
        dispatchSet root parts data = v) ∧
    (∀ msgs : List VMsg,
        processMsgs root msgs = msgs.map (fun m => onGetPath root m.data m.path)) := by
  refine ⟨?_, ?_, ?_, ?_, ?_, processMsgs_eq_map root⟩
  · intro h
    constructor <;> simp [dispatchGet, dispatchSet, h, pathNotFoundRepr, VDef.toRepr]
  · intro d e hs he
    by_cases hne : e = "" <;>
      simp [dispatchGet, hs, he, internalErrorRepr, VDef.toRepr, hne]
  · intro d e hs he
    by_cases hne : e = "" <;>
      simp [dispatchSet, hs, he, internalErrorRepr, VDef.toRepr, hne]
  · intro d v hs hv
    simp [dispatchGet, hs, hv]
  · intro d v hs hv
    simp [dispatchSet, hs, hv]

/-- C1 (witness): on a concrete tree holding a raising method `f` and a
working method `g`, the unresolved path replies 404, the raising
handler replies 500 with its stringified exception as detail, and
processing the raising request does not prevent the next request from
receiving its normal reply. -/
theorem dispatcher_replies_witness :
    dispatchGet (.nodeDef .nil none) ["absent"] .null
      = .obj (.cons "code" (.num 404) (.cons "message" (.str "not found") .nil)) ∧
    dispatchSet (.nodeDef (.cons "f" (.methodDef (fun _ _ => .error "boom") .null .null)
        (.cons "g" (.methodDef (fun _ _ => .ok (.num 7)) .null .null) .nil)) none)
        ["f"] (.arr (.cons (.num 1) .nil))
      = .obj (.cons "code" (.num 500)
          (.cons "message" (.str "internal server error")
            (.cons "detail" (.str "boom") .nil))) ∧
    processMsgs (.nodeDef (.cons "f" (.methodDef (fun _ _ => .error "boom") .null .null)
        (.cons "g" (.methodDef (fun _ _ => .ok (.num 7)) .null .null) .nil)) none)
        [⟨.arr (.cons (.num 1) .nil), "f.set"⟩, ⟨.arr (.cons (.num 1) .nil), "g.set"⟩]
      = [some (.obj (.cons "code" (.num 500)
            (.cons "message" (.str "internal server error")
              (.cons "detail" (.str "boom") .nil)))),
         some (.num 7)] := by
  refine ⟨((dispatcher_replies (.nodeDef .nil none) ["absent"] .null).1 rfl).1, ?_, ?_⟩
  · have h := (dispatcher_replies
        (.nodeDef (.cons "f" (.methodDef (fun _ _ => .error "boom") .null .null)
          (.cons "g" (.methodDef (fun _ _ => .ok (.num 7)) .null .null) .nil)) none)
        ["f"] (.arr (.cons (.num 1) .nil))).2.2.1
        (.methodDef (fun _ _ => .error "boom") .null .null) "boom" rfl rfl
    simpa using h
  · rw [(dispatcher_replies (.nodeDef (.cons "f"
        (.methodDef (fun _ _ => .error "boom") .null .null)
        (.cons "g" (.methodDef (fun _ _ => .ok (.num 7)) .null .null) .nil)) none)
        [] .null).2.2.2.2.2]
    rfl

/-- C1 (counterexample): a handler raising an exception whose
stringified form is the empty string (for example `raise Exception()`)
replies with a 500 object that has no `detail` field at all, so the
reply is not exactly the claimed
three-field `code`/`message`/`detail` object. -/
theorem dispatcher_empty_detail_counterexample :
    dispatchSet (.nodeDef (.cons "f" (.methodDef (fun _ _ => .error "") .null .null) .nil) none)
        ["f"] (.arr (.cons (.num 1) .nil))
      = .obj (.cons "code" (.num 500)
          (.cons "message" (.str "internal server error") .nil)) ∧
    JObj.lookup (.cons "code" (.num 500)
        (.cons "message" (.str "internal server error") .nil)) "detail" = none :=
  ⟨rfl, rfl⟩

/-- Pruning the entries of a dict preserves its keys and prunes each
value in place. -/
theorem pruneObj_lookup (mx : JVal) (cur : Nat) : (kvs : JObj) → (k : String) →
    JObj.lookup (pruneObj mx cur kvs) k
      = (JObj.lookup kvs k).map (pruneValue mx cur)
  | .nil, _ => rfl
  | .cons k0 v rest, k => by
      by_cases h : k0 = k <;>
        simp [pruneObj, JObj.lookup, h, pruneObj_lookup mx cur rest k]

/-- After pruning with limit `n` from counter `cur ≤ n`, no dict
remains reachable through a chain of dict keys once the counter plus
the chain length reaches `n`. -/
theorem pruneValue_no_deep_obj (n : Nat) : ∀ (p : List String) (v : JVal)
    (cur : Nat) (w : JVal), cur ≤ n →
    getAtPath (pruneValue (.num n) cur v) p = some w → w.isObjV = true →
    cur + p.length < n := by
  intro p
  induction p with
  | nil =>
      intro v cur w hc hg hw
      simp [getAtPath] at hg
      cases v with
      | obj kvs =>
          by_cases hn : cur = n
          · subst hn
            simp [pruneValue, pyEqIntJ] at hg
            rw [← hg] at hw
            simp [JVal.isObjV] at hw
          · simp
            omega
      | null => rw [pruneValue] at hg; rw [← hg] at hw; simp [JVal.isObjV] at hw
      | bool b => rw [pruneValue] at hg; rw [← hg] at hw; simp [JVal.isObjV] at hw
      | num m => rw [pruneValue] at hg; rw [← hg] at hw; simp [JVal.isObjV] at hw
      | str s => rw [pruneValue] at hg; rw [← hg] at hw; simp [JVal.isObjV] at hw
      | arr l => rw [pruneValue] at hg; rw [← hg] at hw; simp [JVal.isObjV] at hw
  | cons k p' ih =>
      intro v cur w hc hg hw
      cases v with
      | obj kvs =>
          by_cases hn : cur = n
          · subst hn
            simp [pruneValue, pyEqIntJ, getAtPath] at hg
          · have hlt : cur < n := lt_of_le_of_ne hc hn
            rw [pruneValue] at hg
            rw [if_neg (by simp [pyEqIntJ]; omega)] at hg
            simp only [getAtPath] at hg
            rw [pruneObj_lookup] at hg
            cases hl : JObj.lookup kvs k with
            | none => rw [hl] at hg; simp at hg
            | some c =>
                rw [hl] at hg
                simp only [Option.map_some'] at hg
                have := ih c (cur + 1) w (by omega) hg hw
                simp [List.length_cons]
                omega
      | null => rw [pruneValue] at hg; simp [getAtPath] at hg
      | bool b => rw [pruneValue] at hg; simp [getAtPath] at hg
      | num m => rw [pruneValue] at hg; simp [getAtPath] at hg
      | str s => rw [pruneValue] at hg; simp [getAtPath] at hg
      | arr l => rw [pruneValue] at hg; simp [getAtPath] at hg

/-- A dict sitting at the depth where the counter reaches the limit is
replaced by the literal string dots marker. -/
theorem pruneValue_dots (n : Nat) : ∀ (p : List String) (v : JVal)
    (cur : Nat) (kvs0 : JObj), getAtPath v p = some (.obj kvs0) →
    cur + p.length = n →
    getAtPath (pruneValue (.num n) cur v) p = some (.str "...") := by
  intro p
  induction p with
  | nil =>
      intro v cur kvs0 hg hn
      simp [getAtPath] at hg ⊢
      subst hg
      simp at hn
      simp [pruneValue, pyEqIntJ, hn]
  | cons k p' ih =>
      intro v cur kvs0 hg hn
      cases v with
      | obj kvs =>
          simp only [getAtPath] at hg
          cases hl : JObj.lookup kvs k with
          | none => rw [hl] at hg; simp at hg
          | some c =>
              rw [hl] at hg
              have hcur : cur < n := by simp at hn; omega
              rw [pruneValue]
              rw [if_neg (by simp [pyEqIntJ]; omega)]
              simp only [getAtPath]
              rw [pruneObj_lookup, hl]
              simp only [Option.map_some']
              exact ih c (cur + 1) kvs0 hg (by simp at hn ⊢; omega)
      | null => simp [getAtPath] at hg
      | bool b => simp [getAtPath] at hg
      | num m => simp [getAtPath] at hg
      | str s => simp [getAtPath] at hg
      | arr l => simp [getAtPath] at hg

/-- C5 (amended): for a describe request whose payload carries
`max_level = n`, the reply is the pruned `\x7bhostname: tree\x7d` dict:
no dictionary survives at a dict-key depth greater than `n` (every
child dictionary reached through dictionary keys at depth `n + 1` is
replaced by the literal string dots marker), but non-dict values such
as arrays are never rewritten by the pruning, so a non-string container
(a list) may remain at depth greater than `n`. -/
theorem describe_depth_pruned (hostname : String) (root : VDef) (kvs : JObj)
    (n : Nat) (hml : JObj.lookup kvs "max_level" = some (.num n)) :
    (∀ path w, getAtPath (onGetNodes hostname root (.obj kvs)) path = some w →
        w.isObjV = true → path.length ≤ n) ∧
    (∀ path kvs0,
        getAtPath (.obj (.cons hostname root.toRepr .nil)) path = some (.obj kvs0) →
        path.length = n + 1 →
        getAtPath (onGetNodes hostname root (.obj kvs)) path = some (.str "...")) := by
  have hreply : onGetNodes hostname root (.obj kvs)
      = .obj (pruneObj (.num n) 0 (.cons hostname root.toRepr .nil)) := by
    cases kvs with
    | nil => simp [JObj.lookup] at hml
    | cons k0 v0 rest =>
        simp [onGetNodes, pyTruthy, JObj.isNil, JObj.hasKey, hml]
  constructor
  · intro path w hg hw
    rw [hreply] at hg
    cases path with
    | nil => exact Nat.zero_le n
    | cons k p' =>
        simp only [getAtPath] at hg
        rw [pruneObj_lookup] at hg
        cases hl : JObj.lookup (.cons hostname root.toRepr .nil) k with
        | none => rw [hl] at hg; simp at hg
        | some c =>
            rw [hl] at hg
            simp only [Option.map_some'] at hg
            have hd := pruneValue_no_deep_obj n p' c 0 w (Nat.zero_le n) hg hw
            simp only [List.length_cons]
            omega
  · intro path kvs0 hg hlen
    cases path with
    | nil => simp at hlen
    | cons k p' =>
        rw [hreply]
        simp only [getAtPath] at hg ⊢
        cases hl : JObj.lookup (.cons hostname root.toRepr .nil) k with
        | none => rw [hl] at hg; simp at hg
        | some c =>
            rw [hl] at hg
            rw [pruneObj_lookup, hl]
            simp only [Option.map_some']
            refine pruneValue_dots n p' c 0 kvs0 hg ?_
            simp only [List.length_cons] at hlen
            omega

/-- C5 (witness): a describe with `max_level = 1` on an empty tree
leaves the hostname entry (an empty dict) at depth `1 ≤ 1`, and the
dict at depth 2 of a one-attribute tree is replaced by the dots
marker. -/
theorem describe_depth_pruned_witness :
    (1 : Nat) ≤ 1 ∧
    getAtPath (onGetNodes "h"
        (.nodeDef (.cons "k" (.nodeDef .nil none) .nil) none)
        (.obj (.cons "max_level" (.num 1) .nil))) ["h", "k"]
      = some (.str "...") :=
  ⟨(describe_depth_pruned "h" (.nodeDef .nil none)
      (.cons "max_level" (.num 1) .nil) 1 rfl).1 ["h"] (.obj .nil) rfl rfl,
   (describe_depth_pruned "h" (.nodeDef (.cons "k" (.nodeDef .nil none) .nil) none)
      (.cons "max_level" (.num 1) .nil) 1 rfl).2 ["h", "k"] .nil rfl rfl⟩

/-- C5 (counterexample): with `max_level = 2`, a list-valued attribute
leaves its list in the reply at depth 3 > 2: the value at dict path
`h.k.value` is a list, a non-string container, contradicting the
claim that no dictionary value at depth greater than `n` is a
non-string container. -/
theorem describe_prune_list_counterexample :
    getAtPath (onGetNodes "h"
        (.nodeDef (.cons "k" (.attributeDef "k" (.arr (.cons (.num 1) .nil))
            (.obj (.cons "type" (.str "array") .nil)) none none) .nil) none)
        (.obj (.cons "max_level" (.num 2) .nil))) ["h", "k", "value"]
      = some (.arr (.cons (.num 1) .nil)) ∧
    isNonStringContainer (.arr (.cons (.num 1) .nil)) = true ∧
    (["h", "k", "value"] : List String).length > 2 :=
  ⟨rfl, rfl, by decide⟩
